import Mathlib

set_option autoImplicit false

/-!
Shallow embedding of the gin-crud-starter repository (Go) in Lean 4.

The embedding covers the error taxonomy of pkg/errors/errors.go, the
error mapper of internal/controller/v1/user_controller.go, the user
repository of internal/repository/user_repository.go (GORM soft-delete
semantics made explicit on a list-backed store), the user service of
the service package, the user controller, and the flat item handlers of
handlers/item.go.

Modelling conventions:
  machine integers are Nat or Int; Go errors are an inductive with an
  AppError constructor carrying the struct fields of pkg/errors and an
  external constructor for any other error value (with an optional
  wrapped cause, as produced by fmt.Errorf with a wrap verb); fallible
  Go functions return Except or pair their result with the resulting
  store; time.Time is abstracted to a Nat clock carried by the store;
  bcrypt.GenerateFromPassword is an external library and is passed in
  as a function parameter; database connectivity failure is modelled by
  a single fault flag that makes the email lookup query fail, which is
  the one storage-failure path a claim depends on.
-/

namespace GinCrud

/-- Minimal JSON value model, sufficient for the bodies this service
renders. A nil Go slice marshals to null, a non-nil slice to arr. -/
inductive Json where
  | null : Json
  | num : Int → Json
  | str : String → Json
  | bool : Bool → Json
  | arr : List Json → Json
  | obj : List (String × Json) → Json

/-- Structured details payload of an AppError (Go: details any, used as
a string-keyed map in this codebase). -/
def Details := List (String × Json)

/-- Go error values as seen by this program: either a pkg/errors
AppError (fields StatusCode, Code, Message, Details, wrapped Err) or
any other error, possibly wrapping a cause. -/
inductive GoError where
  | app (statusCode : Nat) (code : String) (message : String)
      (details : Option Details) (cause : Option GoError)
  | external (message : String) (cause : Option GoError)

namespace Errors

/-- Error code constants from pkg/errors/errors.go. -/
def ErrCodeInvalidInput : String := "INVALID_INPUT"

def ErrCodeResourceNotFound : String := "RESOURCE_NOT_FOUND"

def ErrCodeDuplicateResource : String := "DUPLICATE_RESOURCE"

def ErrCodeDatabase : String := "DATABASE_ERROR"

def ErrCodeInternal : String := "INTERNAL_ERROR"

def ErrCodeUnauthorized : String := "UNAUTHORIZED"

def ErrCodeForbidden : String := "FORBIDDEN"

/-- pkg/errors New: build an AppError from its fields. -/
def New (statusCode : Nat) (code message : String) (details : Option Details)
    (err : Option GoError) : GoError :=
  .app statusCode code message details err

/-- NewInvalidInputError: status 400. -/
def NewInvalidInputError (message : String) (details : Option Details)
    (err : Option GoError) : GoError :=
  New 400 ErrCodeInvalidInput message details err

/-- NewResourceNotFoundError: status 404. -/
def NewResourceNotFoundError (message : String) (details : Option Details)
    (err : Option GoError) : GoError :=
  New 404 ErrCodeResourceNotFound message details err

/-- NewDuplicateResourceError: status 409. -/
def NewDuplicateResourceError (message : String) (details : Option Details)
    (err : Option GoError) : GoError :=
  New 409 ErrCodeDuplicateResource message details err

/-- NewDatabaseError: status 500, no details parameter in the source. -/
def NewDatabaseError (message : String) (err : Option GoError) : GoError :=
  New 500 ErrCodeDatabase message none err

/-- NewInternalError: status 500, no details parameter in the source. -/
def NewInternalError (message : String) (err : Option GoError) : GoError :=
  New 500 ErrCodeInternal message none err

/-- NewUnauthorizedError: status 401. -/
def NewUnauthorizedError (message : String) (err : Option GoError) : GoError :=
  New 401 ErrCodeUnauthorized message none err

/-- NewForbiddenError: status 403. -/
def NewForbiddenError (message : String) (err : Option GoError) : GoError :=
  New 403 ErrCodeForbidden message none err

end Errors

/-- Go stdlib errors.As specialised to the target type *AppError: the
error itself matches if it is an AppError; otherwise the chain of
wrapped causes is searched. -/
def errorsAsAppError : GoError → Option GoError
  | .app st c m d cause => some (.app st c m d cause)
  | .external _ none => none
  | .external _ (some inner) => errorsAsAppError inner

/-- StatusCode field of an AppError (500 default on the non-app branch,
which no caller in this development reaches). -/
def appStatusCode : GoError → Nat
  | .app st _ _ _ _ => st
  | .external _ _ => 500

/-- JSON serialisation of an AppError per its struct tags: StatusCode
and Err are omitted, Details carries omitempty. -/
def marshalAppError : GoError → Json
  | .app _ code message details _ =>
      .obj ([("code", .str code), ("message", .str message)] ++
        (match details with
          | none => []
          | some d => [("details", .obj d)]))
  | .external message _ => .obj [("message", .str message)]

/-- handleError from internal/controller/v1/user_controller.go: if
errors.As finds an AppError, respond with its StatusCode and its JSON
form; otherwise respond 500 with a fresh generic internal AppError
wrapping the cause. -/
def handleError (err : GoError) : Nat × Json :=
  match errorsAsAppError err with
  | some appErr => (appStatusCode appErr, marshalAppError appErr)
  | none => (500, marshalAppError (Errors.NewInternalError "An unexpected error occurred" (some err)))

/-! User entity and request shapes, from the entities source file
(src/unnamed/part_003). Timestamps are Nat ticks; a DeletedAt of some t
marks the row soft-deleted (gorm.DeletedAt). -/

/-- User row of the users table. -/
structure User where
  ID : Nat
  Name : String
  Email : String
  Password : String
  Role : String
  Active : Bool
  CreatedAt : Nat
  UpdatedAt : Nat
  DeletedAt : Option Nat
  deriving Repr, DecidableEq

/-- UserCreate request body. -/
structure UserCreate where
  Name : String
  Email : String
  Password : String
  Role : String
  deriving Repr, DecidableEq

/-- UserUpdate request body: every field optional (Go pointer fields). -/
structure UserUpdate where
  Name : Option String
  Email : Option String
  Password : Option String
  Role : Option String
  Active : Option Bool
  deriving Repr, DecidableEq

/-- UserResponse: the outward shape. It has no password component. -/
structure UserResponse where
  ID : Nat
  Name : String
  Email : String
  Role : String
  Active : Bool
  CreatedAt : Nat
  UpdatedAt : Nat
  deriving Repr, DecidableEq

/-- ToResponse from the entities file: copies every field except
Password and DeletedAt. -/
def User.ToResponse (u : User) : UserResponse :=
  { ID := u.ID, Name := u.Name, Email := u.Email, Role := u.Role,
    Active := u.Active, CreatedAt := u.CreatedAt, UpdatedAt := u.UpdatedAt }

/-- The users table plus the database machinery the repository touches:
the auto-increment sequence, a clock for gorm auto-timestamps, and a
fault flag injecting a connectivity failure into the email lookup
query (the one storage-failure path a claim depends on). -/
structure Store where
  users : List User
  nextId : Nat
  now : Nat
  emailQueryFault : Bool
  deriving Repr, DecidableEq

/-- Soft-delete scope of GORM: a row is visible to normal queries only
while deleted_at is null. -/
def visible (u : User) : Bool :=
  u.DeletedAt.isNone

namespace Repo

/-- Sentinel for gorm.ErrRecordNotFound. -/
def gormErrRecordNotFound : GoError :=
  .external "record not found" none

/-- Sentinel for a driver-level connectivity failure. -/
def driverFailure : GoError :=
  .external "driver: bad connection" none

/-- FindAll from internal/repository/user_repository.go: Find lists all
rows in the soft-delete scope (never a NotFound error). -/
def FindAll (s : Store) : Except GoError (List User) :=
  .ok (s.users.filter visible)

/-- FindByID: First by primary key within the soft-delete scope;
translates gorm.ErrRecordNotFound into a ResourceNotFound AppError. -/
def FindByID (s : Store) (id : Nat) : Except GoError User :=
  match s.users.find? (fun u => u.ID == id && visible u) with
  | some u => .ok u
  | none => .error (Errors.NewResourceNotFoundError "User not found"
      (some [("id", .num (Int.ofNat id))]) (some gormErrRecordNotFound))

/-- FindByEmail: First where email matches within the soft-delete
scope; a record-not-found becomes ResourceNotFound, any other query
failure becomes a Database AppError. -/
def FindByEmail (s : Store) (email : String) : Except GoError User :=
  if s.emailQueryFault then
    .error (Errors.NewDatabaseError "Failed to retrieve user by email" (some driverFailure))
  else
    match s.users.find? (fun u => u.Email == email && visible u) with
    | some u => .ok u
    | none => .error (Errors.NewResourceNotFoundError "User not found"
        (some [("email", .str email)]) (some gormErrRecordNotFound))

/-- Row produced by the insert: gorm assigns the sequence id when the
incoming ID is zero and stamps both timestamps. -/
def assignRow (s : Store) (user : User) : User :=
  { user with
    ID := if user.ID == 0 then s.nextId else user.ID,
    CreatedAt := s.now, UpdatedAt := s.now }

/-- Store after the insert of the assigned row. -/
def insertStore (s : Store) (user : User) : Store :=
  { s with
    users := s.users ++ [assignRow s user],
    nextId := if user.ID == 0 then s.nextId + 1 else s.nextId }

/-- Create from internal/repository/user_repository.go: first calls
FindByEmail; only when that call returns a record (err == nil) does it
fail with DuplicateResource; on any lookup error the pre-check is
bypassed and the insert is attempted. Returns the persisted row (the
source mutates the passed pointer) and the resulting store. -/
def Create (s : Store) (user : User) : Except GoError User × Store :=
  match FindByEmail s user.Email with
  | .ok _ => (.error (Errors.NewDuplicateResourceError "User with this email already exists"
      (some [("email", .str user.Email)]) none), s)
  | .error _ => (.ok (assignRow s user), insertStore s user)

/-- Update from internal/repository/user_repository.go: Save writes
all fields of the row with the given primary key within the soft-delete
scope (stamping updated_at); zero rows affected yields
ResourceNotFound. -/
def Update (s : Store) (user : User) : Except GoError Unit × Store :=
  if s.users.any (fun u => u.ID == user.ID && visible u) then
    (.ok (), { s with users := s.users.map (fun u =>
      if u.ID == user.ID && visible u then { user with UpdatedAt := s.now } else u) })
  else
    (.error (Errors.NewResourceNotFoundError "User not found"
      (some [("id", .num (Int.ofNat user.ID))]) none), s)

/-- Delete from internal/repository/user_repository.go: a GORM soft
delete sets deleted_at on the row with the given primary key within the
soft-delete scope; zero rows affected yields ResourceNotFound. -/
def Delete (s : Store) (id : Nat) : Except GoError Unit × Store :=
  if s.users.any (fun u => u.ID == id && visible u) then
    (.ok (), { s with users := s.users.map (fun u =>
      if u.ID == id && visible u then { u with DeletedAt := some s.now } else u) })
  else
    (.error (Errors.NewResourceNotFoundError "User not found"
      (some [("id", .num (Int.ofNat id))]) none), s)

end Repo

namespace Service

/-! User service (service package). bcrypt.GenerateFromPassword is an
external library call and is passed in as the function parameter hash;
the error branch of hashing is not reachable in this model, matching
the fact that no claim concerns a hashing failure. Context timeouts are
not modelled. -/

/-- One iteration of the GetAllUsers loop: append the response shape
to the slice (a Go append on a nil slice yields a non-nil slice). -/
def appendResponse (response : Option (List UserResponse)) (u : User) :
    Option (List UserResponse) :=
  match response with
  | none => some [u.ToResponse]
  | some l => some (l ++ [u.ToResponse])

/-- GetAllUsers: FindAll, then the append loop into a nil-initialised
slice. The result none models the Go nil slice (no user appended),
some l a non-nil slice. -/
def GetAllUsers (s : Store) : Except GoError (Option (List UserResponse)) × Store :=
  match Repo.FindAll s with
  | .error e => (.error e, s)
  | .ok users => (.ok (users.foldl appendResponse none), s)

/-- GetUserByID: FindByID then ToResponse. -/
def GetUserByID (s : Store) (id : Nat) : Except GoError UserResponse × Store :=
  match Repo.FindByID s id with
  | .error e => (.error e, s)
  | .ok user => (.ok user.ToResponse, s)

/-- Entity construction block of CreateUser: the hashed password, the
input fields, Active true, and the default of an empty Role to user. -/
def buildCreateRow (hash : String → String) (input : UserCreate) : User :=
  let hashedPassword := hash input.Password
  let user : User :=
    { ID := 0, Name := input.Name, Email := input.Email,
      Password := hashedPassword, Role := input.Role, Active := true,
      CreatedAt := 0, UpdatedAt := 0, DeletedAt := none }
  if user.Role == "" then { user with Role := "user" } else user

/-- CreateUser: hash the password, build the entity with Active true,
default an empty Role to user, delegate to Repo.Create, return the
response shape of the persisted row. -/
def CreateUser (hash : String → String) (s : Store) (input : UserCreate) :
    Except GoError UserResponse × Store :=
  match Repo.Create s (buildCreateRow hash input) with
  | (.error e, s1) => (.error e, s1)
  | (.ok created, s1) => (.ok created.ToResponse, s1)

/-- Field merge of UpdateUser: each field of the loaded row is
overwritten only when the input carries it; a present password is
re-hashed. -/
def applyUpdate (hash : String → String) (user : User) (input : UserUpdate) : User :=
  let user := match input.Name with
    | some n => { user with Name := n }
    | none => user
  let user := match input.Email with
    | some e => { user with Email := e }
    | none => user
  let user := match input.Password with
    | some p => { user with Password := hash p }
    | none => user
  let user := match input.Role with
    | some r => { user with Role := r }
    | none => user
  match input.Active with
  | some a => { user with Active := a }
  | none => user

/-- UpdateUser: load via FindByID (propagating its error), merge the
provided fields, persist via Repo.Update, return the response shape of
the merged record. -/
def UpdateUser (hash : String → String) (s : Store) (id : Nat) (input : UserUpdate) :
    Except GoError UserResponse × Store :=
  match Repo.FindByID s id with
  | .error e => (.error e, s)
  | .ok user =>
      let user := applyUpdate hash user input
      match Repo.Update s user with
      | (.error e, s1) => (.error e, s1)
      | (.ok _, s1) => (.ok user.ToResponse, s1)

/-- DeleteUser: delegate to Repo.Delete, propagating its error. -/
def DeleteUser (s : Store) (id : Nat) : Except GoError Unit × Store :=
  Repo.Delete s id

end Service

/-! Request binding. ShouldBindJSON both decodes the JSON body and runs
the validator over the binding struct tags. The tags live in the
entities source file; the validator itself (go-playground/validator
v10) is an external library, modelled here by one Bool predicate per
request shape, following its documented semantics: required means not
the zero value (for pointers: not nil), omitempty skips the remaining
rules only when the field has no value, and a set pointer counts as
having a value even when it points at the zero value, so its remaining
rules still run on the pointed-to value. -/

/-- Abstraction of the external validator email rule: one at sign with
a nonempty mailbox and a nonempty domain. No claim depends on the exact
email language. -/
def emailFormatOk (e : String) : Bool :=
  let cs := e.toList
  cs.count '@' == 1 && cs.head? != some '@' && cs.getLast? != some '@'

/-- oneof=admin user. -/
def validRole (r : String) : Bool :=
  r == "admin" || r == "user"

/-- Tags of UserCreate: Name required; Email required,email; Password
required,min=6; Role omitempty,oneof=admin user (an empty Role skips
the oneof rule, because a plain empty string has no value). -/
def validUserCreate (u : UserCreate) : Bool :=
  u.Name != "" && u.Email != "" && emailFormatOk u.Email &&
    decide (6 ≤ u.Password.length) && (u.Role == "" || validRole u.Role)

/-- Tags of UserUpdate: all fields are pointers with omitempty; a nil
field skips its rules, a set field runs them on the pointed-to value
(so a set Role must be admin or user, even a set empty string is
rejected by oneof). -/
def validUserUpdate (u : UserUpdate) : Bool :=
  u.Email.all emailFormatOk &&
    u.Password.all (fun p => decide (6 ≤ p.length)) &&
    u.Role.all validRole

/-- A request body as the handler sees it: either syntactically
malformed JSON or a decoded value (still to be validated). -/
inductive BindInput (α : Type) where
  | malformed (raw : String)
  | parsed (a : α)

/-- ShouldBindJSON: decode errors and validation errors both surface as
a non-AppError error value. -/
def bindJSON {α : Type} (valid : α → Bool) : BindInput α → Except GoError α
  | .malformed raw => .error (.external ("invalid character in " ++ raw) none)
  | .parsed a =>
      if valid a then .ok a
      else .error (.external "validation failed" none)

/-- strconv.ParseUint(idParam, 10, 32) from parseIDParam: no sign
prefix, decimal digits only, nonempty, must fit 32 bits. -/
def parseUint32 (s : String) : Option Nat :=
  if s.length > 0 && s.toList.all Char.isDigit then
    let n := s.toList.foldl (fun acc c => acc * 10 + (c.toNat - 48)) 0
    if n < 2 ^ 32 then some n else none
  else none

/-- strconv.Atoi from the item handlers: optional sign, decimal digits,
64-bit signed range. -/
def atoi (s : String) : Option Int :=
  let signedDigits : Bool × List Char :=
    match s.toList with
    | '-' :: rest => (true, rest)
    | '+' :: rest => (false, rest)
    | cs => (false, cs)
  let digits := signedDigits.2
  if digits.length > 0 && digits.all Char.isDigit then
    let n : Int := digits.foldl (fun acc c => acc * 10 + ((c.toNat : Int) - 48)) 0
    let v : Int := if signedDigits.1 then -n else n
    if -(2 ^ 63) ≤ v && v < 2 ^ 63 then some v else none
  else none

/-- JSON shape of a UserResponse per its struct tags. -/
def marshalUserResponse (r : UserResponse) : Json :=
  .obj [("id", .num (Int.ofNat r.ID)), ("name", .str r.Name),
    ("email", .str r.Email), ("role", .str r.Role),
    ("active", .bool r.Active), ("created_at", .num (Int.ofNat r.CreatedAt)),
    ("updated_at", .num (Int.ofNat r.UpdatedAt))]

/-- encoding/json on a []UserResponse slice: a nil slice marshals to
null, a non-nil slice to an array. -/
def marshalUserList : Option (List UserResponse) → Json
  | none => .null
  | some l => .arr (l.map marshalUserResponse)

namespace Controller

/-- Outcome of one user handler call: response status and body, the
store after the call, and whether the service was invoked. -/
structure HandlerOut where
  status : Nat
  body : Json
  store : Store
  serviceCalled : Bool

/-- GetAllUsers handler: service then 200 with the (possibly nil)
slice. -/
def GetAllUsers (s : Store) : HandlerOut :=
  match Service.GetAllUsers s with
  | (.error e, s1) =>
      { status := (handleError e).1, body := (handleError e).2,
        store := s1, serviceCalled := true }
  | (.ok users, s1) =>
      { status := 200, body := marshalUserList users,
        store := s1, serviceCalled := true }

/-- GetUserByID handler: parseIDParam failure responds 400 before the
service; otherwise service then 200. -/
def GetUserByID (s : Store) (idParam : String) : HandlerOut :=
  match parseUint32 idParam with
  | none =>
      { status := 400,
        body := marshalAppError (Errors.NewInvalidInputError "Invalid ID format" none
          (some (.external "invalid syntax" none))),
        store := s, serviceCalled := false }
  | some id =>
      match Service.GetUserByID s id with
      | (.error e, s1) =>
          { status := (handleError e).1, body := (handleError e).2,
            store := s1, serviceCalled := true }
      | (.ok user, s1) =>
          { status := 200, body := marshalUserResponse user,
            store := s1, serviceCalled := true }

/-- CreateUser handler: binding failure responds 400 before the
service; otherwise service then 201. -/
def CreateUser (hash : String → String) (s : Store) (body : BindInput UserCreate) : HandlerOut :=
  match bindJSON validUserCreate body with
  | .error e =>
      { status := 400,
        body := marshalAppError (Errors.NewInvalidInputError "Invalid input" none (some e)),
        store := s, serviceCalled := false }
  | .ok input =>
      match Service.CreateUser hash s input with
      | (.error e, s1) =>
          { status := (handleError e).1, body := (handleError e).2,
            store := s1, serviceCalled := true }
      | (.ok user, s1) =>
          { status := 201, body := marshalUserResponse user,
            store := s1, serviceCalled := true }

/-- UpdateUser handler: id parse failure, then binding failure, each
respond 400 before the service; otherwise service then 200. -/
def UpdateUser (hash : String → String) (s : Store) (idParam : String)
    (body : BindInput UserUpdate) : HandlerOut :=
  match parseUint32 idParam with
  | none =>
      { status := 400,
        body := marshalAppError (Errors.NewInvalidInputError "Invalid ID format" none
          (some (.external "invalid syntax" none))),
        store := s, serviceCalled := false }
  | some id =>
      match bindJSON validUserUpdate body with
      | .error e =>
          { status := 400,
            body := marshalAppError (Errors.NewInvalidInputError "Invalid input" none (some e)),
            store := s, serviceCalled := false }
      | .ok input =>
          match Service.UpdateUser hash s id input with
          | (.error e, s1) =>
              { status := (handleError e).1, body := (handleError e).2,
                store := s1, serviceCalled := true }
          | (.ok user, s1) =>
              { status := 200, body := marshalUserResponse user,
                store := s1, serviceCalled := true }

/-- DeleteUser handler: id parse failure responds 400 before the
service; otherwise service then 204 with an empty body. -/
def DeleteUser (s : Store) (idParam : String) : HandlerOut :=
  match parseUint32 idParam with
  | none =>
      { status := 400,
        body := marshalAppError (Errors.NewInvalidInputError "Invalid ID format" none
          (some (.external "invalid syntax" none))),
        store := s, serviceCalled := false }
  | some id =>
      match Service.DeleteUser s id with
      | (.error e, s1) =>
          { status := (handleError e).1, body := (handleError e).2,
            store := s1, serviceCalled := true }
      | (.ok _, s1) =>
          { status := 204, body := .null, store := s1, serviceCalled := true }

end Controller

/-! Item resource (models source file and handlers/item.go). The Item
model has no DeletedAt column, so deletes are hard deletes. Price is
float64 in the source, abstracted to Rat; no handler modelled here
computes with it. -/

/-- Item row of the items table. -/
structure Item where
  ID : Nat
  Name : String
  Price : Rat
  Description : String
  CreatedAt : Nat
  UpdatedAt : Nat
  deriving Repr, DecidableEq

/-- Items table. -/
structure ItemStore where
  items : List Item
  deriving Repr, DecidableEq

/-- Outcome of one item handler call. -/
structure ItemOut where
  status : Nat
  body : Json
  store : ItemStore

/-- DeleteItem from handlers/item.go: parse the id with Atoi (400 on
failure); run the hard delete by primary key; only a database error
gives 500; the affected row count is never consulted, and the handler
responds 200 with an id echo in every remaining case. -/
def DeleteItem (s : ItemStore) (idParam : String) : ItemOut :=
  match atoi idParam with
  | none => { status := 400, body := .obj [("error", .str "Invalid ID")], store := s }
  | some id =>
      { status := 200, body := .obj [("deleted", .num id)],
        store := { items := s.items.filter (fun it => !((Int.ofNat it.ID) == id)) } }

/-- Code field of an AppError (empty default on the non-app branch). -/
def appCode : GoError → String
  | .app _ c _ _ _ => c
  | .external _ _ => ""

/-- Fixture row: an existing visible user. -/
def annRow : User :=
  { ID := 1, Name := "Ann", Email := "ann@x.com", Password := "h",
    Role := "user", Active := true, CreatedAt := 0, UpdatedAt := 0, DeletedAt := none }

/-- Fixture store holding only the fixture row. -/
def annStore : Store :=
  { users := [annRow], nextId := 2, now := 3, emailQueryFault := false }

/-- Fixture store with the email lookup query failing. -/
def annStoreFaulted : Store :=
  { users := [annRow], nextId := 2, now := 3, emailQueryFault := true }

/-- Fixture row to be inserted, same email as the fixture row. -/
def ann2Row : User :=
  { ID := 0, Name := "Ann2", Email := "ann@x.com", Password := "h2",
    Role := "user", Active := true, CreatedAt := 0, UpdatedAt := 0, DeletedAt := none }

/-- Invariant of C10: every stored role is admin or user. -/
def RolesOk (s : Store) : Prop :=
  ∀ u ∈ s.users, u.Role = "admin" ∨ u.Role = "user"

/-! Theorems. -/

/-- The closed set of typed error kinds of section 4.4 of the spec. -/
inductive ErrorKind where
  | invalidInput
  | resourceNotFound
  | duplicateResource
  | database
  | internal
  | unauthorized
  | forbidden
  deriving Repr, DecidableEq

/-- Fixed status of each kind, per the spec table. -/
def kindStatus : ErrorKind → Nat
  | .invalidInput => 400
  | .resourceNotFound => 404
  | .duplicateResource => 409
  | .database => 500
  | .internal => 500
  | .unauthorized => 401
  | .forbidden => 403

/-- Machine code of each kind, per the spec table. -/
def kindCode : ErrorKind → String
  | .invalidInput => Errors.ErrCodeInvalidInput
  | .resourceNotFound => Errors.ErrCodeResourceNotFound
  | .duplicateResource => Errors.ErrCodeDuplicateResource
  | .database => Errors.ErrCodeDatabase
  | .internal => Errors.ErrCodeInternal
  | .unauthorized => Errors.ErrCodeUnauthorized
  | .forbidden => Errors.ErrCodeForbidden

/-- The typed constructor of each kind, as the source exposes them. -/
def mkKindError : ErrorKind → String → Option Details → Option GoError → GoError
  | .invalidInput, m, d, c => Errors.NewInvalidInputError m d c
  | .resourceNotFound, m, d, c => Errors.NewResourceNotFoundError m d c
  | .duplicateResource, m, d, c => Errors.NewDuplicateResourceError m d c
  | .database, m, _, c => Errors.NewDatabaseError m c
  | .internal, m, _, c => Errors.NewInternalError m c
  | .unauthorized, m, _, c => Errors.NewUnauthorizedError m c
  | .forbidden, m, _, c => Errors.NewForbiddenError m c

/-- Details kept by the constructor of each kind: only the 400, 404 and
409 constructors take a details argument. -/
def kindDetails : ErrorKind → Option Details → Option Details
  | .invalidInput, d => d
  | .resourceNotFound, d => d
  | .duplicateResource, d => d
  | .database, _ => none
  | .internal, _ => none
  | .unauthorized, _ => none
  | .forbidden, _ => none

/-- Wrap an error in a chain of plain wrapping errors, as fmt.Errorf
with a wrap verb would. -/
def wrapExternals : List String → GoError → GoError
  | [], e => e
  | m :: ms, e => .external m (some (wrapExternals ms e))

theorem handleError_external_wrap (m : String) (w : GoError) :
    handleError (.external m (some w)) = handleError w :=
  rfl

/-- C1: every error that is, or wraps under plain error layers, a value
built by one of the typed AppError constructors is mapped by the
handler boundary to exactly that kind's fixed status code with the body
fields code, message and optional details; every other error value is
mapped to 500 with the INTERNAL_ERROR code and a fixed generic message,
with no trace of the underlying cause in the body. -/
theorem C1_error_mapper :
    (∀ (k : ErrorKind) (m : String) (d : Option Details) (c : Option GoError) (pre : List String),
      handleError (wrapExternals pre (mkKindError k m d c)) =
        (kindStatus k,
          Json.obj ([("code", Json.str (kindCode k)), ("message", Json.str m)] ++
            (match kindDetails k d with
              | none => []
              | some dd => [("details", Json.obj dd)])))) ∧
    (∀ e : GoError, errorsAsAppError e = none →
      handleError e =
        (500, Json.obj [("code", Json.str Errors.ErrCodeInternal),
          ("message", Json.str "An unexpected error occurred")])) := by
  constructor
  · intro k m d c pre
    induction pre with
    | nil => cases k <;> cases d <;> rfl
    | cons hd tl ih => rw [wrapExternals, handleError_external_wrap, ih]
  · intro e he
    simp [handleError, he, marshalAppError, Errors.NewInternalError, Errors.New]

/-- Closed instance of C1: a plain error with no AppError in its chain
is mapped to the generic 500 internal response. -/
theorem C1_error_mapper_witness :
    handleError (GoError.external "pq: connection reset" none) =
      (500, Json.obj [("code", Json.str Errors.ErrCodeInternal),
        ("message", Json.str "An unexpected error occurred")]) :=
  C1_error_mapper.2 (GoError.external "pq: connection reset" none) rfl

theorem buildCreateRow_eq (hash : String → String) (input : UserCreate) :
    Service.buildCreateRow hash input =
      { ID := 0, Name := input.Name, Email := input.Email,
        Password := hash input.Password,
        Role := if input.Role = "" then "user" else input.Role, Active := true,
        CreatedAt := 0, UpdatedAt := 0, DeletedAt := none } := by
  by_cases h : input.Role = "" <;> simp [Service.buildCreateRow, h]

/-- C2: for a valid creation input whose email lookup finds no existing
user, CreateUser persists the password only as the hash (different from
the plaintext, hypothesis on the external hash function), defaults an
empty role to user, sets active, and returns the response shape (a type
with no password field) carrying a non-zero identifier. -/
theorem C2_create_user (hash : String → String) (s : Store) (input : UserCreate)
    (hvalid : validUserCreate input = true)
    (hnext : 0 < s.nextId)
    (hhash : hash input.Password ≠ input.Password)
    (hfree : ∃ e, Repo.FindByEmail s input.Email = .error e) :
    ∃ resp s1, Service.CreateUser hash s input = (.ok resp, s1) ∧
      resp.ID ≠ 0 ∧
      ∃ u, u ∈ s1.users ∧ u.ID = resp.ID ∧
        u.Password = hash input.Password ∧ u.Password ≠ input.Password ∧
        u.Role = (if input.Role = "" then "user" else input.Role) ∧
        u.Active = true ∧ resp = u.ToResponse := by
  obtain ⟨e, he⟩ := hfree
  have hb := buildCreateRow_eq hash input
  have hem : (Service.buildCreateRow hash input).Email = input.Email := by rw [hb]
  have hcreate : Service.CreateUser hash s input =
      (.ok (Repo.assignRow s (Service.buildCreateRow hash input)).ToResponse,
       Repo.insertStore s (Service.buildCreateRow hash input)) := by
    simp only [Service.CreateUser, Repo.Create, hem, he]
  refine ⟨(Repo.assignRow s (Service.buildCreateRow hash input)).ToResponse,
    Repo.insertStore s (Service.buildCreateRow hash input), hcreate, ?_,
    Repo.assignRow s (Service.buildCreateRow hash input), ?_, rfl, ?_, ?_, ?_, ?_, rfl⟩
  · rw [hb]
    simp [Repo.assignRow, User.ToResponse]
    omega
  · simp [Repo.insertStore]
  · rw [hb]
    rfl
  · rw [hb]
    exact hhash
  · rw [hb]
    rfl
  · rw [hb]
    rfl

/-- Closed instance of C2: creating Ann in the empty store yields id 1,
the hashed password, the default role and an active account. -/
theorem C2_create_user_witness :
    ∃ resp s1,
      Service.CreateUser (fun p => "$2a$10$" ++ p)
        { users := [], nextId := 1, now := 7, emailQueryFault := false }
        { Name := "Ann", Email := "ann@x.com", Password := "secret1", Role := "" } =
        (.ok resp, s1) ∧
      resp.ID ≠ 0 ∧
      ∃ u, u ∈ s1.users ∧ u.ID = resp.ID ∧
        u.Password = (fun p => "$2a$10$" ++ p) "secret1" ∧ u.Password ≠ "secret1" ∧
        u.Role = (if "" = "" then "user" else "") ∧
        u.Active = true ∧ resp = u.ToResponse :=
  C2_create_user (fun p => "$2a$10$" ++ p)
    { users := [], nextId := 1, now := 7, emailQueryFault := false }
    { Name := "Ann", Email := "ann@x.com", Password := "secret1", Role := "" }
    (by decide) (by decide) (by decide) ⟨_, rfl⟩

/-- C3: when a non-soft-deleted user with the requested email already
exists and the lookup query itself does not fail, the gateway Create
finds the record through FindByEmail and fails with the 409
DuplicateResource error, leaving the store untouched (no insert). -/
theorem C3_duplicate_create (s : Store) (u : User)
    (hfault : s.emailQueryFault = false)
    (hdup : ∃ w ∈ s.users, w.Email = u.Email ∧ w.DeletedAt = none) :
    (∃ w, Repo.FindByEmail s u.Email = .ok w) ∧
    Repo.Create s u =
      (.error (Errors.NewDuplicateResourceError "User with this email already exists"
        (some [("email", .str u.Email)]) none), s) := by
  obtain ⟨w, hw, hemail, hdel⟩ := hdup
  obtain ⟨v, hv⟩ : ∃ v, s.users.find? (fun x => x.Email == u.Email && visible x) = some v := by
    have hsome : (s.users.find? (fun x => x.Email == u.Email && visible x)).isSome = true := by
      rw [List.find?_isSome]
      exact ⟨w, hw, by simp [visible, hemail, hdel]⟩
    exact Option.isSome_iff_exists.mp hsome
  have hfind : Repo.FindByEmail s u.Email = .ok v := by
    simp [Repo.FindByEmail, hfault, hv]
  exact ⟨⟨v, hfind⟩, by simp [Repo.Create, hfind]⟩

/-- Closed instance of C3: creating a second Ann fails with the 409
duplicate error and the store is unchanged. -/
theorem C3_duplicate_create_witness :
    (∃ w, Repo.FindByEmail annStore "ann@x.com" = .ok w) ∧
    Repo.Create annStore ann2Row =
      (.error (Errors.NewDuplicateResourceError "User with this email already exists"
        (some [("email", .str "ann@x.com")]) none), annStore) :=
  C3_duplicate_create annStore ann2Row rfl ⟨annRow, by simp [annStore], rfl, rfl⟩

/-- C9: the duplicate pre-check fires only off a successful lookup: a
Database failure of the FindByEmail query makes the gateway Create skip
the check and attempt the insert anyway, and conversely any
DuplicateResource failure of Create implies the lookup returned a
record. -/
theorem C9_duplicate_check_bypass :
    (∀ (s : Store) (u : User), s.emailQueryFault = true →
      Repo.Create s u = (.ok (Repo.assignRow s u), Repo.insertStore s u)) ∧
    (∀ (s : Store) (u : User) (e : GoError),
      (Repo.Create s u).1 = .error e →
      appCode e = Errors.ErrCodeDuplicateResource →
      ∃ w, Repo.FindByEmail s u.Email = .ok w) := by
  constructor
  · intro s u hfault
    simp [Repo.Create, Repo.FindByEmail, hfault]
  · intro s u e herr _
    cases hfb : Repo.FindByEmail s u.Email with
    | ok w => exact ⟨w, rfl⟩
    | error e0 =>
        rw [Repo.Create] at herr
        rw [hfb] at herr
        exact absurd herr (by simp)

/-- Closed instance of C9: with the email lookup failing, Create
inserts a second row with the same email as an existing visible row,
bypassing the duplicate check. -/
theorem C9_duplicate_check_bypass_witness :
    Repo.Create annStoreFaulted ann2Row =
      (.ok (Repo.assignRow annStoreFaulted ann2Row),
       Repo.insertStore annStoreFaulted ann2Row) :=
  C9_duplicate_check_bypass.1 annStoreFaulted ann2Row rfl

theorem find?_map_replace {α : Type} (p : α → Bool) (w : α) (l : List α)
    (hw : p w = true) (hany : l.any p = true) :
    (l.map (fun x => if p x then w else x)).find? p = some w := by
  induction l with
  | nil => simp at hany
  | cons hd tl ih =>
      by_cases hp : p hd = true
      · simp [hp, hw]
      · have htl : tl.any p = true := by
          simp only [List.any_cons, Bool.or_eq_true] at hany
          exact hany.resolve_left hp
        simp only [List.map_cons, if_neg hp, List.find?_cons]
        simp only [Bool.not_eq_true] at hp
        rw [hp]
        exact ih htl

theorem find?_map_mark {α : Type} (p : α → Bool) (f : α → α) (l : List α)
    (hf : ∀ x, p x = true → p (f x) = false) :
    (l.map (fun x => if p x then f x else x)).find? p = none := by
  induction l with
  | nil => rfl
  | cons hd tl ih =>
      by_cases hp : p hd = true
      · simp only [List.map_cons, if_pos hp, List.find?_cons, hf hd hp]
        exact ih
      · simp only [List.map_cons, if_neg hp, List.find?_cons]
        simp only [Bool.not_eq_true] at hp
        rw [hp]
        exact ih

/-- C4: updating an existing user with an input carrying only the name
succeeds and leaves the stored email, role, active flag and password
hash exactly as they were, changing only the name. -/
theorem C4_update_name_only (hash : String → String) (s : Store) (id : Nat)
    (n : String) (u0 : User)
    (hfind : Repo.FindByID s id = .ok u0) :
    ∃ resp s1,
      Service.UpdateUser hash s id
        { Name := some n, Email := none, Password := none, Role := none, Active := none } =
        (.ok resp, s1) ∧
      ∃ u1, Repo.FindByID s1 id = .ok u1 ∧
        u1.Name = n ∧ u1.Email = u0.Email ∧ u1.Role = u0.Role ∧
        u1.Active = u0.Active ∧ u1.Password = u0.Password := by
  have hfind' : s.users.find? (fun u => u.ID == id && visible u) = some u0 := by
    simp only [Repo.FindByID] at hfind
    cases h : s.users.find? (fun u => u.ID == id && visible u) with
    | some v =>
        rw [h] at hfind
        have hv : v = u0 := by simpa using hfind
        rw [hv]
    | none =>
        rw [h] at hfind
        exact absurd hfind (by simp)
  have hp := List.find?_some hfind'
  have hmem := List.mem_of_find?_eq_some hfind'
  simp only [Bool.and_eq_true, beq_iff_eq, visible, Option.isNone_iff_eq_none] at hp
  obtain ⟨hid, hvis⟩ := hp
  subst hid
  have hany : s.users.any (fun u => u.ID == u0.ID && visible u) = true :=
    List.any_eq_true.mpr ⟨u0, hmem, by simp [visible, hvis]⟩
  refine ⟨({ u0 with Name := n } : User).ToResponse,
    { s with users := s.users.map (fun u =>
        if u.ID == u0.ID && visible u then
          { u0 with Name := n, UpdatedAt := s.now } else u) }, ?_, ?_⟩
  · simp only [Service.UpdateUser]
    rw [hfind]
    simp only [Service.applyUpdate, Repo.Update]
    rw [if_pos hany]
  · refine ⟨{ u0 with Name := n, UpdatedAt := s.now }, ?_, rfl, rfl, rfl, rfl, rfl⟩
    simp only [Repo.FindByID]
    rw [find?_map_replace _ _ _ (by simp [visible, hvis]) hany]

/-- Closed instance of C4: renaming Ann leaves her email, role, active
flag and password hash in place. -/
theorem C4_update_name_only_witness :
    ∃ resp s1,
      Service.UpdateUser (fun p => "$2a$10$" ++ p) annStore 1
        { Name := some "Beth", Email := none, Password := none, Role := none, Active := none } =
        (.ok resp, s1) ∧
      ∃ u1, Repo.FindByID s1 1 = .ok u1 ∧
        u1.Name = "Beth" ∧ u1.Email = annRow.Email ∧ u1.Role = annRow.Role ∧
        u1.Active = annRow.Active ∧ u1.Password = annRow.Password :=
  C4_update_name_only (fun p => "$2a$10$" ++ p) annStore 1 "Beth" annRow rfl

/-- C5: a successful delete of a user id followed by a read of the same
id yields the 404 ResourceNotFound error: the soft-deleted row is
outside the scope of the read. -/
theorem C5_delete_then_get (s : Store) (id : Nat)
    (hdel : (Service.DeleteUser s id).1 = .ok ()) :
    ∃ e, Service.GetUserByID (Service.DeleteUser s id).2 id =
      (.error e, (Service.DeleteUser s id).2) ∧
      appStatusCode e = 404 ∧ appCode e = Errors.ErrCodeResourceNotFound := by
  have hany : s.users.any (fun u => u.ID == id && visible u) = true := by
    by_contra h
    simp only [Bool.not_eq_true] at h
    simp [Service.DeleteUser, Repo.Delete, h] at hdel
  have hs2 : (Service.DeleteUser s id).2 =
      { s with users := s.users.map (fun u =>
          if u.ID == id && visible u then { u with DeletedAt := some s.now } else u) } := by
    simp [Service.DeleteUser, Repo.Delete, hany]
  have hnone : ((Service.DeleteUser s id).2).users.find?
      (fun u => u.ID == id && visible u) = none := by
    rw [hs2]
    exact find?_map_mark _ _ _ (fun x _ => by simp [visible])
  refine ⟨Errors.NewResourceNotFoundError "User not found"
    (some [("id", .num (Int.ofNat id))]) (some Repo.gormErrRecordNotFound), ?_, rfl, rfl⟩
  simp only [Service.GetUserByID, Repo.FindByID]
  rw [hnone]

/-- Closed instance of C5: deleting Ann then reading id 1 yields the
404 ResourceNotFound error. -/
theorem C5_delete_then_get_witness :
    ∃ e, Service.GetUserByID (Service.DeleteUser annStore 1).2 1 =
      (.error e, (Service.DeleteUser annStore 1).2) ∧
      appStatusCode e = 404 ∧ appCode e = Errors.ErrCodeResourceNotFound :=
  C5_delete_then_get annStore 1 rfl

/-- C6: every request whose body fails JSON binding or validation, and
every request whose id path parameter does not parse, is answered 400
with the INVALID_INPUT AppError before the service runs: the store is
returned unchanged and the service is never invoked. -/
theorem C6_validation_before_service :
    (∀ (hash : String → String) (s : Store) (body : BindInput UserCreate) (e : GoError),
      bindJSON validUserCreate body = .error e →
      Controller.CreateUser hash s body =
        { status := 400,
          body := marshalAppError (Errors.NewInvalidInputError "Invalid input" none (some e)),
          store := s, serviceCalled := false }) ∧
    (∀ (hash : String → String) (s : Store) (idParam : String) (body : BindInput UserUpdate),
      parseUint32 idParam = none →
      Controller.UpdateUser hash s idParam body =
        { status := 400,
          body := marshalAppError (Errors.NewInvalidInputError "Invalid ID format" none
            (some (.external "invalid syntax" none))),
          store := s, serviceCalled := false }) ∧
    (∀ (hash : String → String) (s : Store) (idParam : String) (id : Nat)
        (body : BindInput UserUpdate) (e : GoError),
      parseUint32 idParam = some id →
      bindJSON validUserUpdate body = .error e →
      Controller.UpdateUser hash s idParam body =
        { status := 400,
          body := marshalAppError (Errors.NewInvalidInputError "Invalid input" none (some e)),
          store := s, serviceCalled := false }) ∧
    (∀ (s : Store) (idParam : String), parseUint32 idParam = none →
      Controller.DeleteUser s idParam =
        { status := 400,
          body := marshalAppError (Errors.NewInvalidInputError "Invalid ID format" none
            (some (.external "invalid syntax" none))),
          store := s, serviceCalled := false }) ∧
    (∀ (s : Store) (idParam : String), parseUint32 idParam = none →
      Controller.GetUserByID s idParam =
        { status := 400,
          body := marshalAppError (Errors.NewInvalidInputError "Invalid ID format" none
            (some (.external "invalid syntax" none))),
          store := s, serviceCalled := false }) := by
  refine ⟨?_, ?_, ?_, ?_, ?_⟩
  · intro hash s body e hbind
    simp [Controller.CreateUser, hbind]
  · intro hash s idParam body hid
    simp [Controller.UpdateUser, hid]
  · intro hash s idParam id body e hp hbind
    simp [Controller.UpdateUser, hp, hbind]
  · intro s idParam hid
    simp [Controller.DeleteUser, hid]
  · intro s idParam hid
    simp [Controller.GetUserByID, hid]

/-- Closed instance of C6: a malformed creation body is answered 400
on the unchanged empty store with the service never invoked. -/
theorem C6_validation_before_service_witness :
    Controller.CreateUser (fun p => "$2a$10$" ++ p)
      { users := [], nextId := 1, now := 0, emailQueryFault := false }
      (.malformed "not json") =
      { status := 400,
        body := marshalAppError (Errors.NewInvalidInputError "Invalid input" none
          (some (.external ("invalid character in " ++ "not json") none))),
        store := { users := [], nextId := 1, now := 0, emailQueryFault := false },
        serviceCalled := false } :=
  C6_validation_before_service.1 (fun p => "$2a$10$" ++ p)
    { users := [], nextId := 1, now := 0, emailQueryFault := false }
    (.malformed "not json") (.external ("invalid character in " ++ "not json") none) rfl

/-- C7 counterexample: deleting item id 1 from an empty item table
yields the 200 success response with an id echo, although no row was
affected, so the claimed NotFound outcome does not occur. -/
theorem C7_counterexample :
    (DeleteItem { items := [] } "1").status = 200 ∧
    (DeleteItem { items := [] } "1").status ≠ 404 ∧
    ({ items := [] } : ItemStore).items.all (fun it => it.ID != 1) = true := by
  refine ⟨rfl, by decide, rfl⟩

/-- C7 amended: the item Delete handler never consults the affected
row count: for every parseable id it removes the matching rows (if any)
and responds 200 with an id echo, even when no row matched; only an
unparseable id changes the outcome (400). -/
theorem C7_amended :
    (∀ (s : ItemStore) (idParam : String) (id : Int), atoi idParam = some id →
      DeleteItem s idParam =
        { status := 200, body := .obj [("deleted", .num id)],
          store := { items := s.items.filter (fun it => !((Int.ofNat it.ID) == id)) } }) ∧
    (∀ (s : ItemStore) (idParam : String), atoi idParam = none →
      DeleteItem s idParam =
        { status := 400, body := .obj [("error", .str "Invalid ID")], store := s }) := by
  constructor
  · intro s idParam id h
    simp [DeleteItem, h]
  · intro s idParam h
    simp [DeleteItem, h]

/-- Closed instance of the amended C7: item delete of id 7 on the empty
table responds 200 with the id echo. -/
theorem C7_amended_witness :
    DeleteItem { items := [] } "7" =
      { status := 200, body := .obj [("deleted", .num 7)],
        store := { items := ([] : List Item).filter (fun it => !((Int.ofNat it.ID) == 7)) } } :=
  C7_amended.1 { items := [] } "7" 7 (by decide)

theorem foldl_appendResponse (l : List User) (acc : List UserResponse) :
    l.foldl Service.appendResponse (some acc) = some (acc ++ l.map User.ToResponse) := by
  induction l generalizing acc with
  | nil => simp
  | cons hd tl ih => simp [Service.appendResponse, ih]

/-- C8 counterexample: with no users stored, the list endpoint responds
200 but its body is JSON null (the Go nil slice), not the empty JSON
array the claim states. -/
theorem C8_counterexample :
    (Controller.GetAllUsers { users := [], nextId := 1, now := 0, emailQueryFault := false }).status = 200 ∧
    (Controller.GetAllUsers { users := [], nextId := 1, now := 0, emailQueryFault := false }).body = Json.null ∧
    Json.null ≠ Json.arr [] :=
  ⟨rfl, rfl, fun h => Json.noConfusion h⟩

/-- C8 amended: the list endpoint always responds 200 without touching
the store; the body is the JSON array of the response shapes of the
non-deleted users when at least one exists, and JSON null (the nil
slice marshalled) when none exist. -/
theorem C8_amended (s : Store) :
    (Controller.GetAllUsers s).status = 200 ∧
    (Controller.GetAllUsers s).store = s ∧
    (Controller.GetAllUsers s).body =
      (match s.users.filter visible with
        | [] => Json.null
        | l => Json.arr (l.map (fun u => marshalUserResponse u.ToResponse))) := by
  refine ⟨?_, ?_, ?_⟩
  · simp [Controller.GetAllUsers, Service.GetAllUsers, Repo.FindAll]
  · simp [Controller.GetAllUsers, Service.GetAllUsers, Repo.FindAll]
  · simp only [Controller.GetAllUsers, Service.GetAllUsers, Repo.FindAll]
    cases h : s.users.filter visible with
    | nil => simp [h, marshalUserList]
    | cons hd tl => simp [h, Service.appendResponse, foldl_appendResponse, marshalUserList]

theorem bindJSON_ok {α : Type} (v : α → Bool) (b : BindInput α) (a : α)
    (h : bindJSON v b = .ok a) : v a = true := by
  cases b with
  | malformed raw => exact absurd h (by simp [bindJSON])
  | parsed x =>
      rw [bindJSON] at h
      split at h
      · cases h
        assumption
      · exact absurd h (by simp)

theorem validUserCreate_role (input : UserCreate)
    (h : validUserCreate input = true) :
    input.Role = "" ∨ input.Role = "admin" ∨ input.Role = "user" := by
  simp only [validUserCreate, validRole, Bool.and_eq_true, Bool.or_eq_true,
    beq_iff_eq] at h
  exact h.2

theorem validUserUpdate_role (input : UserUpdate)
    (h : validUserUpdate input = true) :
    input.Role = none ∨ input.Role = some "admin" ∨ input.Role = some "user" := by
  simp only [validUserUpdate, Bool.and_eq_true] at h
  have h3 := h.2
  cases hr : input.Role with
  | none => exact Or.inl rfl
  | some r =>
      rw [hr] at h3
      simp only [Option.all, validRole, Bool.or_eq_true, beq_iff_eq] at h3
      rcases h3 with h3 | h3
      · exact Or.inr (Or.inl (by rw [h3]))
      · exact Or.inr (Or.inr (by rw [h3]))

theorem Create_store_cases (s : Store) (u : User) :
    (Repo.Create s u).2 = s ∨ (Repo.Create s u).2 = Repo.insertStore s u := by
  rw [Repo.Create]
  cases Repo.FindByEmail s u.Email <;> simp

theorem RolesOk_insertStore (s : Store) (u : User) (hs : RolesOk s)
    (hu : u.Role = "admin" ∨ u.Role = "user") :
    RolesOk (Repo.insertStore s u) := by
  intro v hv
  simp only [Repo.insertStore, List.mem_append, List.mem_singleton] at hv
  rcases hv with hv | hv
  · exact hs v hv
  · have hrv : v.Role = u.Role := by rw [hv]; rfl
    rw [hrv]
    exact hu

theorem CreateUser_snd (hash : String → String) (s : Store) (input : UserCreate) :
    (Service.CreateUser hash s input).2 =
      (Repo.Create s (Service.buildCreateRow hash input)).2 := by
  simp only [Service.CreateUser]
  cases h : Repo.Create s (Service.buildCreateRow hash input) with
  | mk r s1 => cases r <;> rfl

theorem CreateUser_roles (hash : String → String) (s : Store) (input : UserCreate)
    (hs : RolesOk s)
    (hrole : input.Role = "" ∨ input.Role = "admin" ∨ input.Role = "user") :
    RolesOk (Service.CreateUser hash s input).2 := by
  rw [CreateUser_snd]
  rcases Create_store_cases s (Service.buildCreateRow hash input) with h | h <;> rw [h]
  · exact hs
  · apply RolesOk_insertStore _ _ hs
    rw [buildCreateRow_eq]
    by_cases h0 : input.Role = ""
    · simp [h0]
    · rcases hrole with h1 | h1 | h1
      · exact absurd h1 h0
      · simp [h0, h1]
      · simp [h0, h1]

theorem applyUpdate_Role (hash : String → String) (u : User) (input : UserUpdate) :
    (Service.applyUpdate hash u input).Role =
      match input.Role with
      | some r => r
      | none => u.Role := by
  obtain ⟨nm, em, pw, rl, ac⟩ := input
  cases nm <;> cases em <;> cases pw <;> cases rl <;> cases ac <;> rfl

theorem RolesOk_update_store (s : Store) (w : User) (hs : RolesOk s)
    (hw : w.Role = "admin" ∨ w.Role = "user") :
    RolesOk ((Repo.Update s w).2) := by
  rw [Repo.Update]
  split
  · intro v hv
    simp only [List.mem_map] at hv
    obtain ⟨x, hx, rfl⟩ := hv
    by_cases hpx : (x.ID == w.ID && visible x) = true
    · simp only [if_pos hpx]
      have hr : ({ w with UpdatedAt := s.now } : User).Role = w.Role := rfl
      rw [hr]
      exact hw
    · simp only [if_neg hpx]
      exact hs x hx
  · exact hs

theorem RolesOk_delete_store (s : Store) (id : Nat) (hs : RolesOk s) :
    RolesOk ((Repo.Delete s id).2) := by
  rw [Repo.Delete]
  split
  · intro v hv
    simp only [List.mem_map] at hv
    obtain ⟨x, hx, rfl⟩ := hv
    by_cases hpx : (x.ID == id && visible x) = true
    · simp only [if_pos hpx]
      have hr : ({ x with DeletedAt := some s.now } : User).Role = x.Role := rfl
      rw [hr]
      exact hs x hx
    · simp only [if_neg hpx]
      exact hs x hx
  · exact hs

theorem FindByID_ok_mem (s : Store) (id : Nat) (u : User)
    (h : Repo.FindByID s id = .ok u) : u ∈ s.users := by
  simp only [Repo.FindByID] at h
  cases hf : s.users.find? (fun x => x.ID == id && visible x) with
  | some v =>
      rw [hf] at h
      have hv : v = u := by simpa using h
      exact hv ▸ List.mem_of_find?_eq_some hf
  | none =>
      rw [hf] at h
      exact absurd h (by simp)

theorem UpdateUser_roles (hash : String → String) (s : Store) (id : Nat)
    (input : UserUpdate) (hs : RolesOk s)
    (hrole : input.Role = none ∨ input.Role = some "admin" ∨ input.Role = some "user") :
    RolesOk (Service.UpdateUser hash s id input).2 := by
  simp only [Service.UpdateUser]
  cases hf : Repo.FindByID s id with
  | error e => exact hs
  | ok u0 =>
      have hmem := FindByID_ok_mem s id u0 hf
      have hwrole : (Service.applyUpdate hash u0 input).Role = "admin" ∨
          (Service.applyUpdate hash u0 input).Role = "user" := by
        rw [applyUpdate_Role]
        rcases hrole with h | h | h
        · rw [h]
          exact hs u0 hmem
        · rw [h]
          exact Or.inl rfl
        · rw [h]
          exact Or.inr rfl
      have hupd := RolesOk_update_store s (Service.applyUpdate hash u0 input) hs hwrole
      show RolesOk ((match Repo.Update s (Service.applyUpdate hash u0 input) with
        | (.error e, s1) => ((.error e : Except GoError UserResponse), s1)
        | (.ok _, s1) =>
            ((.ok (Service.applyUpdate hash u0 input).ToResponse :
              Except GoError UserResponse), s1))).2
      cases hu : Repo.Update s (Service.applyUpdate hash u0 input) with
      | mk r s1 =>
          rw [hu] at hupd
          cases r <;> exact hupd

theorem GetUserByID_snd (s : Store) (id : Nat) :
    (Service.GetUserByID s id).2 = s := by
  simp only [Service.GetUserByID]
  cases Repo.FindByID s id <;> rfl

/-- C10: the bindings only let role values admin, user (and, on
creation, the empty string) through, the service turns an empty created
role into user, and consequently every handler preserves the invariant
that each stored role is admin or user. -/
theorem C10_role_invariant :
    (∀ input : UserCreate, validUserCreate input = true →
      input.Role = "" ∨ input.Role = "admin" ∨ input.Role = "user") ∧
    (∀ input : UserUpdate, validUserUpdate input = true →
      input.Role = none ∨ input.Role = some "admin" ∨ input.Role = some "user") ∧
    (∀ (hash : String → String) (s : Store), RolesOk s →
      (∀ body, RolesOk (Controller.CreateUser hash s body).store) ∧
      (∀ idParam body, RolesOk (Controller.UpdateUser hash s idParam body).store) ∧
      (∀ idParam, RolesOk (Controller.DeleteUser s idParam).store) ∧
      (∀ idParam, RolesOk (Controller.GetUserByID s idParam).store) ∧
      RolesOk (Controller.GetAllUsers s).store) := by
  refine ⟨validUserCreate_role, validUserUpdate_role, ?_⟩
  intro hash s hs
  refine ⟨?_, ?_, ?_, ?_, ?_⟩
  · intro body
    cases hb : bindJSON validUserCreate body with
    | error e => simpa [Controller.CreateUser, hb] using hs
    | ok input =>
        have hrole := validUserCreate_role input (bindJSON_ok _ _ _ hb)
        have hsvc := CreateUser_roles hash s input hs hrole
        simp only [Controller.CreateUser, hb]
        cases hc : Service.CreateUser hash s input with
        | mk r s1 =>
            rw [hc] at hsvc
            cases r <;> exact hsvc
  · intro idParam body
    cases hp : parseUint32 idParam with
    | none => simpa [Controller.UpdateUser, hp] using hs
    | some id =>
        cases hb : bindJSON validUserUpdate body with
        | error e => simpa [Controller.UpdateUser, hp, hb] using hs
        | ok input =>
            have hrole := validUserUpdate_role input (bindJSON_ok _ _ _ hb)
            have hsvc := UpdateUser_roles hash s id input hs hrole
            simp only [Controller.UpdateUser, hp, hb]
            cases hc : Service.UpdateUser hash s id input with
            | mk r s1 =>
                rw [hc] at hsvc
                cases r <;> exact hsvc
  · intro idParam
    cases hp : parseUint32 idParam with
    | none => simpa [Controller.DeleteUser, hp] using hs
    | some id =>
        have hsvc := RolesOk_delete_store s id hs
        simp only [Controller.DeleteUser, hp]
        cases hc : Service.DeleteUser s id with
        | mk r s1 =>
            rw [Service.DeleteUser] at hc
            rw [hc] at hsvc
            cases r <;> exact hsvc
  · intro idParam
    cases hp : parseUint32 idParam with
    | none => simpa [Controller.GetUserByID, hp] using hs
    | some id =>
        simp only [Controller.GetUserByID, hp]
        cases hc : Service.GetUserByID s id with
        | mk r s1 =>
            have hs1 : s1 = s := by
              have hsnd := GetUserByID_snd s id
              rw [hc] at hsnd
              exact hsnd
            subst hs1
            cases r <;> exact hs
  · simpa [Controller.GetAllUsers, Service.GetAllUsers, Repo.FindAll] using hs

/-- Closed instance of C10: deleting on the one-user fixture store
preserves the role invariant. -/
theorem C10_role_invariant_witness :
    RolesOk (Controller.DeleteUser annStore "1").store :=
  ((C10_role_invariant.2.2 (fun p => p) annStore
    (fun u hu => by
      simp only [annStore, annRow, List.mem_singleton] at hu
      rw [hu]
      exact Or.inr rfl)).2.2.1) "1"

end GinCrud
